import Mathlib

/-
  Verification of SeriesLoadLimiter (SeriesLoadLimiter_old/SeriesLoadLimiter.ino)
  against its natural-language specification.

  The firmware is shallowly embedded: the configuration constants are the
  #define values of the sketch, AVR machine words (16-bit unsigned) are
  modelled as Nat with explicit reduction modulo 65536 where an overflow or
  wrap can occur, and the interrupt-driven inputs (zero-cross edges, the
  overcurrent comparator, the pushbutton, serial bytes) are modelled as
  explicit Boolean inputs to the foreground control functions.
-/

/-- Configuration constant MainsFrequency of the sketch (Hz). -/
def MainsFrequency : Nat := 50

/-- Configuration constant MaximumCurrent of the sketch (mA). -/
def MaximumCurrent : Nat := 10000

/-- Configuration constant CurrentDigitCount of the sketch. -/
def CurrentDigitCount : Nat := 5

/-- Configuration constant LargestDigitIncrement of the sketch. -/
def LargestDigitIncrement : Nat := 10000

/-- Configuration constant CurrentPresets of the sketch. -/
def CurrentPresets : Nat := 10

/-- Modulus of the 16-bit AVR word type used for CurrentLimit and the PWM value. -/
def WordModulus : Nat := 65536

/-
  C1: WriteCurrentLimit (sketch lines 312-328).
    word temp = (MaximumCurrent + 1);
    temp -= CurrentLimit;
    AdvancedAnalogWrite.write(CurrentLimitPWM, temp, 0);
  The two word operations are modelled with explicit wrap-around modulo 2^16.
-/

/-- The duty code computed by WriteCurrentLimit and forwarded to the PWM
driver, as a function of the CurrentLimit word. -/
def dutyCode (CurrentLimit : Nat) : Nat :=
  ((MaximumCurrent + 1) % WordModulus + WordModulus - CurrentLimit % WordModulus)
    % WordModulus

/-- C1: for every CurrentLimit value v in [0, MaximumCurrent] the duty code
written by WriteCurrentLimit equals MaximumCurrent + 1 - v, and the mapping is
strictly decreasing in v. -/
theorem dutyCode_inverted_strictly_decreasing (v w : Nat)
    (hv : v ≤ MaximumCurrent) (hw : w ≤ MaximumCurrent) (hvw : v < w) :
    dutyCode v = MaximumCurrent + 1 - v ∧ dutyCode w < dutyCode v := by
  simp only [dutyCode, MaximumCurrent, WordModulus] at *
  omega

/-- Witness for C1 at the spec scenario values: CurrentLimit 2500 maps to duty
code 7501, and 2501 maps strictly below it. -/
theorem dutyCode_inverted_strictly_decreasing_witness :
    dutyCode 2500 = MaximumCurrent + 1 - 2500 ∧ dutyCode 2501 < dutyCode 2500 :=
  dutyCode_inverted_strictly_decreasing 2500 2501 (by decide) (by decide) (by decide)

/-
  C2: the startup waveform qualifier (sketch lines 855-894 together with
  WaitForZeroCrossingOrTimeout, lines 437-444).

  The bounded edge waits are modelled by Booleans telling whether the
  corresponding checked wait observed an edge before its iteration bound
  expired:
    initialEdge  - the initial either-edge wait (line 855) saw an edge;
    risingSeen   - the checked rising-only wait (line 865) saw an edge;
    fallingSeen  - the checked falling-only wait (line 876) saw an edge;
    measured     - StopTime - StartTime, the measured half-period in
                   microseconds (assigned whenever the falling branch runs).
  The unchecked synchronisation waits (lines 863 and 873) only align the
  measurement and do not feed the fault decision.
-/

/-- Error code ErrorNone of the sketch. -/
def ErrorNone : Nat := 0

/-- Error code ErrorSinewaveOnly of the sketch (the NonSinusoidal fault). -/
def ErrorSinewaveOnly : Nat := 1

/-- Error code ErrorNoAltCycles of the sketch (the NoAlternatingCycles fault). -/
def ErrorNoAltCycles : Nat := 2

/-- Error code ErrorNoZeroCross of the sketch (the NoZeroCross fault). -/
def ErrorNoZeroCross : Nat := 3

/-- The non-sinusoidal threshold of line 885:
(((1000000UL / MainsFrequency / 2) * 75) / 100). -/
def NonSinusoidalThreshold : Nat := 1000000 / MainsFrequency / 2 * 75 / 100

/-- The alternating-edge measurement phase of the qualifier (lines 859-884):
returns the final BothEdgesDetected flag and the final ZeroCrossingTime.
If the checked rising-only wait timed out, BothEdgesDetected becomes false and
ZeroCrossingTime keeps its previous value; otherwise ZeroCrossingTime is set
to the measured falling-to-falling interval and BothEdgesDetected reflects the
checked falling-only wait. -/
def measureAlternatingEdges (risingSeen fallingSeen : Bool)
    (measured prevZeroCrossingTime : Nat) : Bool × Nat :=
  if risingSeen = false then (false, prevZeroCrossingTime)
  else (fallingSeen, measured)

/-- The fault code assigned by the startup qualifier (lines 855-894):
no initial edge gives ErrorNoZeroCross; otherwise the final checks of
lines 885-890 run on the measurement result. -/
def startupErrorCode (initialEdge risingSeen fallingSeen : Bool)
    (measured : Nat) : Nat :=
  if initialEdge = true then
    let m := measureAlternatingEdges risingSeen fallingSeen measured 0
    if m.1 = true ∧ m.2 < NonSinusoidalThreshold then ErrorSinewaveOnly
    else if m.1 = false then ErrorNoAltCycles
    else ErrorNone
  else ErrorNoZeroCross

/-- C2: the startup qualifier assigns fault codes exactly as specified: no
initial edge gives NoZeroCross; a timeout on the checked rising-only or
falling-only wait gives NoAlternatingCycles; both edges seen with a measured
half-period below 75 percent of nominal gives NonSinusoidal; at least 75
percent gives None.  The final conjunct ties the threshold constant of the
code to 75 percent of the nominal half-period. -/
theorem startupErrorCode_spec (initialEdge risingSeen fallingSeen : Bool)
    (measured : Nat) :
    (initialEdge = false →
      startupErrorCode initialEdge risingSeen fallingSeen measured
        = ErrorNoZeroCross) ∧
    (initialEdge = true → (risingSeen = false ∨ fallingSeen = false) →
      startupErrorCode initialEdge risingSeen fallingSeen measured
        = ErrorNoAltCycles) ∧
    (initialEdge = true → risingSeen = true → fallingSeen = true →
      measured < NonSinusoidalThreshold →
      startupErrorCode initialEdge risingSeen fallingSeen measured
        = ErrorSinewaveOnly) ∧
    (initialEdge = true → risingSeen = true → fallingSeen = true →
      NonSinusoidalThreshold ≤ measured →
      startupErrorCode initialEdge risingSeen fallingSeen measured
        = ErrorNone) ∧
    100 * NonSinusoidalThreshold = 75 * (1000000 / MainsFrequency / 2) := by
  cases initialEdge <;> cases risingSeen <;> cases fallingSeen <;>
    simp [startupErrorCode, measureAlternatingEdges, NonSinusoidalThreshold,
      MainsFrequency, ErrorNone, ErrorSinewaveOnly, ErrorNoAltCycles,
      ErrorNoZeroCross]

/-- Witness for C2: with all edges observed and a measured half-period of
8000 microseconds (above the 7500 microsecond threshold) the qualifier
reports no fault. -/
theorem startupErrorCode_spec_witness :
    startupErrorCode true true true 8000 = ErrorNone :=
  (startupErrorCode_spec true true true 8000).2.2.2.1 rfl rfl rfl (by decide)

/-
  C10: the boot-time countermeasure-flag read (sketch lines 463-467).
    BackEMFcountermeasuresRequired = EEPROM.read(BackEMFcountermeasuresRequiredBase);
    if (BackEMFcountermeasuresRequired != true && BackEMFcountermeasuresRequired != false) {
      BackEMFcountermeasuresRequired = false;
      EEPROM.write(BackEMFcountermeasuresRequiredBase, BackEMFcountermeasuresRequired);
    }
  Assigning the EEPROM byte to a C++ bool coerces: nonzero becomes true and
  zero becomes false. -/

/-- The C++ bool coercion applied when the persisted byte is assigned to the
bool variable BackEMFcountermeasuresRequired. -/
def byteToBool (b : Nat) : Bool := b != 0

/-- The boot-time countermeasure-flag read of lines 463-467: returns the
resulting flag value and the persisted byte after the read (the write-back
branch would store byte 0). -/
def bootCountermeasureInit (stored : Nat) : Bool × Nat :=
  let flag := byteToBool stored
  if flag ≠ true ∧ flag ≠ false then (false, 0)
  else (flag, stored)

/-- C10: the boot read yields true for every nonzero persisted byte and false
only for zero; the corrupt-value check is unreachable after the bool
coercion, so the normalization write-back never executes and the persisted
byte is left unchanged whatever its value. -/
theorem bootCountermeasureInit_spec (stored : Nat) :
    ¬ (byteToBool stored ≠ true ∧ byteToBool stored ≠ false) ∧
    bootCountermeasureInit stored = (byteToBool stored, stored) ∧
    (stored ≠ 0 → (bootCountermeasureInit stored).1 = true) ∧
    (stored = 0 → (bootCountermeasureInit stored).1 = false) := by
  have hcond : ¬ (byteToBool stored ≠ true ∧ byteToBool stored ≠ false) := by
    intro h
    cases hb : byteToBool stored
    · exact h.2 (by rw [hb])
    · exact h.1 (by rw [hb])
  have heq : bootCountermeasureInit stored = (byteToBool stored, stored) := by
    simp only [bootCountermeasureInit]
    exact if_neg hcond
  refine ⟨hcond, heq, ?_, ?_⟩
  · intro h
    rw [heq]
    simp [byteToBool, h]
  · intro h
    subst h
    decide

/-- Witness for C10 at stored byte 7: the flag reads back true and the byte
is unchanged. -/
theorem bootCountermeasureInit_spec_witness :
    (bootCountermeasureInit 7).1 = true ∧
    bootCountermeasureInit 7 = (byteToBool 7, 7) :=
  ⟨(bootCountermeasureInit_spec 7).2.2.1 (by decide),
   (bootCountermeasureInit_spec 7).2.1⟩

/-
  C3: Normal-mode pushbutton handling with back-EMF countermeasures enabled
  (loop, sketch lines 969-989, together with PushbuttonTimeout lines 391-402
  and the re-enable of lines 1142-1146).

  The model records the value of the EnableOutput request at the observable
  points of one press interaction.  Inputs:
    enableOutput0 - EnableOutput before the press (HIGH in normal operation);
    backEMF       - BackEMFcountermeasuresRequired;
    secondPress   - whether PushbuttonTimeout(3) observes a second press
                    inside the grace window (it returns false exactly then);
    holdSeconds   - the value TimePushbuttonHeld() would return;
    diagnosticMode - DummyZeroCrossingIRQenable.
  The menu dispatch body (lines 990-1141) never writes EnableOutput, so the
  value at menu entry persists until the re-enable of lines 1142-1146.
-/

/-- Observable actuator states of one Normal-mode press interaction. -/
structure PressOutcome where
  outputDuringGraceWindow : Bool
  holdMeasured : Bool
  outputAtMenuEntry : Bool
  whatToDo : Nat
  outputAtEnd : Bool
  deriving DecidableEq

/-- One Normal-mode press interaction of loop lines 969-989 and 1142-1146:
with the countermeasure flag set, the first press only resets the LCD and
opens the grace window; EnableOutput is set LOW at line 980 only after
PushbuttonTimeout(3) reports a second press, and TimePushbuttonHeld is then
consulted for the menu; on timeout WhatToDo keeps its initial value 11 (the
no-op menu branch); after the menu, lines 1142-1146 set EnableOutput HIGH
when the flag is set and diagnostic mode is off. -/
def normalModePress (enableOutput0 backEMF secondPress : Bool)
    (holdSeconds : Nat) (diagnosticMode : Bool) : PressOutcome :=
  if backEMF = true then
    if secondPress = true then
      { outputDuringGraceWindow := enableOutput0
        holdMeasured := true
        outputAtMenuEntry := false
        whatToDo := holdSeconds
        outputAtEnd := if diagnosticMode = false then true else false }
    else
      { outputDuringGraceWindow := enableOutput0
        holdMeasured := false
        outputAtMenuEntry := enableOutput0
        whatToDo := 11
        outputAtEnd := if diagnosticMode = false then true else enableOutput0 }
  else
    { outputDuringGraceWindow := enableOutput0
      holdMeasured := true
      outputAtMenuEntry := enableOutput0
      whatToDo := holdSeconds
      outputAtEnd := enableOutput0 }

/-- Counterexample to C3 as stated: with the countermeasure flag set and the
actuator enabled, the first press does NOT disable the actuator before
further interaction - the output request is still HIGH while the grace
window waits for the second press. -/
theorem normalModePress_firstPressDisables_false :
    ¬ ((normalModePress true true true 3 false).outputDuringGraceWindow
        = false) := by decide

/-- C3 (amended): with the countermeasure flag set, the first press leaves
the actuator enabled through the grace window; the actuator is disabled only
once a second press arrives inside the window, before the menu hold duration
is measured; absent the second press no hold is measured, WhatToDo stays at
the no-op value 11, and outside diagnostic mode the interaction ends with
the actuator enabled. -/
theorem normalModePress_spec (secondPress : Bool) (holdSeconds : Nat)
    (diagnosticMode : Bool) :
    (normalModePress true true secondPress holdSeconds
        diagnosticMode).outputDuringGraceWindow = true ∧
    (secondPress = true →
      (normalModePress true true secondPress holdSeconds
          diagnosticMode).holdMeasured = true ∧
      (normalModePress true true secondPress holdSeconds
          diagnosticMode).outputAtMenuEntry = false ∧
      (normalModePress true true secondPress holdSeconds
          diagnosticMode).whatToDo = holdSeconds) ∧
    (secondPress = false →
      (normalModePress true true secondPress holdSeconds
          diagnosticMode).holdMeasured = false ∧
      (normalModePress true true secondPress holdSeconds
          diagnosticMode).whatToDo = 11 ∧
      (diagnosticMode = false →
        (normalModePress true true secondPress holdSeconds
            diagnosticMode).outputAtEnd = true)) := by
  cases secondPress <;> cases diagnosticMode <;> simp [normalModePress]

/-- Witness for the amended C3 on the timeout path: no second press means no
hold measurement, the no-op menu value, and an enabled actuator at the end. -/
theorem normalModePress_spec_witness :
    (normalModePress true true false 0 false).holdMeasured = false ∧
    (normalModePress true true false 0 false).whatToDo = 11 ∧
    (normalModePress true true false 0 false).outputAtEnd = true := by
  have h := (normalModePress_spec false 0 false).2.2 rfl
  exact ⟨h.1, h.2.1, h.2.2 rfl⟩

/-
  C5: the boot-time integrity pass (sketch lines 845-854).
    for (int i = 0; i < CurrentPresets; i++) {
      word PresetCurrent = RecallPreset(i);
      if (PresetCurrent > MaximumCurrent) { PresetCurrent = 0; StorePreset(PresetCurrent, i); }
    }
    if (EEPROM.read(PresetRecallBase) >= CurrentPresets) { EEPROM.write(PresetRecallBase, 0); }
  The EEPROM slot contents are modelled as a function from slot index to the
  stored word.
-/

/-- The preset-slot portion of the boot integrity pass: the slot contents
after the loop of lines 845-851, given the contents before it. -/
def presetIntegrityPass (slots : Nat → Nat) : Nat → Nat :=
  fun i =>
    if i < CurrentPresets then
      if MaximumCurrent < slots i then 0 else slots i
    else slots i

/-- The default-index portion of the boot integrity pass (lines 852-854). -/
def defaultIndexIntegrity (storedIndex : Nat) : Nat :=
  if CurrentPresets ≤ storedIndex then 0 else storedIndex

/-- C5: the boot integrity pass overwrites a slot with 0 exactly when its
stored value exceeds MaximumCurrent and leaves every in-range slot unchanged,
and it resets the persisted default index to 0 exactly when it is at least
CurrentPresets. -/
theorem bootIntegrityPass_spec (slots : Nat → Nat) (i storedIndex : Nat) :
    (i < CurrentPresets → MaximumCurrent < slots i →
      presetIntegrityPass slots i = 0) ∧
    (i < CurrentPresets → slots i ≤ MaximumCurrent →
      presetIntegrityPass slots i = slots i) ∧
    (CurrentPresets ≤ storedIndex → defaultIndexIntegrity storedIndex = 0) ∧
    (storedIndex < CurrentPresets →
      defaultIndexIntegrity storedIndex = storedIndex) := by
  refine ⟨?_, ?_, ?_, ?_⟩ <;>
    · intros
      simp only [presetIntegrityPass, defaultIndexIntegrity]
      split_ifs <;> omega

/-- Witness for C5: a slot holding 20000 (out of range) is normalized to 0,
a slot holding 2500 is untouched, and a stored default index of 10 is reset
while 3 is kept. -/
theorem bootIntegrityPass_spec_witness :
    presetIntegrityPass (fun _ => 20000) 0 = 0 ∧
    presetIntegrityPass (fun _ => 2500) 3 = 2500 ∧
    defaultIndexIntegrity 10 = 0 ∧
    defaultIndexIntegrity 3 = 3 :=
  ⟨(bootIntegrityPass_spec (fun _ => 20000) 0 0).1 (by decide) (by decide),
   (bootIntegrityPass_spec (fun _ => 2500) 3 0).2.1 (by decide) (by decide),
   (bootIntegrityPass_spec (fun _ => 0) 0 10).2.2.1 (by decide),
   (bootIntegrityPass_spec (fun _ => 0) 0 3).2.2.2 (by decide)⟩

/-
  C6 and C7: the remote-session STORE command handler (sketch lines 636-659).

    bool StoreDefault = false;
    word MemoryToStore = FieldOps.extractInt(..., 1, ...);
    word ValueToStore;                       // note: NOT initialized
    if (field 2 is "DEFAULT") StoreDefault = true;
    else ValueToStore = FieldOps.extractInt(..., 2, ...);
    if (MemoryToStore <= CurrentPresets && ValueToStore <= MaximumCurrent
        && ((CurrentPresets >= 100 && MemoryToStore >= 0 && MemoryToStore < 100)
            || (CurrentPresets < 100 && MemoryToStore >= 1 && MemoryToStore < 100))) {
      if (CurrentPresets < 100) MemoryToStore--;
      if (StoreDefault == false) StorePreset(ValueToStore, MemoryToStore);
      else EEPROM.write(PresetRecallBase, MemoryToStore);
    } else ValidField = false;

  For STORE slot DEFAULT the variable ValueToStore is read uninitialized in
  the validity test; the model passes the indeterminate stack value in
  explicitly as the valueField argument.  The session replies OK when
  ValidField stays true and ERROR otherwise (lines 809-814).
-/

/-- Result of one STORE command: the preset slots, the persisted default
index, and whether the session replies OK (true) or ERROR (false). -/
structure SerialStoreResult where
  slots : List Nat
  defaultIdx : Nat
  ok : Bool
  deriving DecidableEq

/-- The validity test of line 646, as a function of the parsed slot field and
of the value that happens to be in ValueToStore when the test runs. -/
def storeCommandValid (MemoryToStore ValueToStore : Nat) : Bool :=
  decide (MemoryToStore ≤ CurrentPresets)
    && decide (ValueToStore ≤ MaximumCurrent)
    && ((decide (100 ≤ CurrentPresets) && decide (MemoryToStore < 100))
        || (decide (CurrentPresets < 100) && decide (1 ≤ MemoryToStore)
            && decide (MemoryToStore < 100)))

/-- The STORE command handler of lines 636-659.  For the plain variant
(storeDefault false) valueField is the parsed milliamp argument; for the
DEFAULT variant it is the indeterminate content of the uninitialized
ValueToStore. -/
def storeCommand (slots : List Nat) (defaultIdx : Nat) (slotField : Nat)
    (storeDefault : Bool) (valueField : Nat) : SerialStoreResult :=
  if storeCommandValid slotField valueField = true then
    let mem := if CurrentPresets < 100 then slotField - 1 else slotField
    if storeDefault = false then
      { slots := slots.set mem valueField, defaultIdx := defaultIdx, ok := true }
    else
      { slots := slots, defaultIdx := mem, ok := true }
  else
    { slots := slots, defaultIdx := defaultIdx, ok := false }

/-- The validity test of line 646 amounts, at the configured
CurrentPresets = 10 and MaximumCurrent = 10000, to a 1-based slot in 1..10
and a value of at most 10000. -/
theorem storeCommandValid_iff (slotField valueField : Nat) :
    storeCommandValid slotField valueField = true ↔
      (1 ≤ slotField ∧ slotField ≤ CurrentPresets
        ∧ valueField ≤ MaximumCurrent) := by
  simp only [storeCommandValid, CurrentPresets, MaximumCurrent,
    Bool.and_eq_true, Bool.or_eq_true, decide_eq_true_eq]
  omega

/-- C6: a STORE slot mA command whose slot is outside 1..CurrentPresets or
whose value exceeds MaximumCurrent leaves every slot and the default index
unchanged and replies ERROR; an in-range pair writes the value to the
addressed slot (1-based addressing) and replies OK. -/
theorem storeCommand_spec (slots : List Nat) (defaultIdx slotField mA : Nat) :
    ((slotField = 0 ∨ CurrentPresets < slotField ∨ MaximumCurrent < mA) →
      storeCommand slots defaultIdx slotField false mA
        = ⟨slots, defaultIdx, false⟩) ∧
    (1 ≤ slotField → slotField ≤ CurrentPresets → mA ≤ MaximumCurrent →
      storeCommand slots defaultIdx slotField false mA
        = ⟨slots.set (slotField - 1) mA, defaultIdx, true⟩) := by
  constructor
  · intro h
    have hv : ¬ storeCommandValid slotField mA = true := by
      rw [storeCommandValid_iff]
      simp only [CurrentPresets, MaximumCurrent] at h ⊢
      omega
    simp only [storeCommand, if_neg hv]
  · intro h1 h2 h3
    have hv : storeCommandValid slotField mA = true :=
      (storeCommandValid_iff slotField mA).2 ⟨h1, h2, h3⟩
    simp only [storeCommand, if_pos hv, CurrentPresets]
    norm_num

/-- Witness for C6: STORE 11 5000 with ten presets replies ERROR and mutates
nothing, while STORE 3 2500 writes slot index 2 and replies OK. -/
theorem storeCommand_spec_witness :
    storeCommand (List.replicate CurrentPresets 0) 0 11 false 5000
      = ⟨List.replicate CurrentPresets 0, 0, false⟩ ∧
    storeCommand (List.replicate CurrentPresets 0) 0 3 false 2500
      = ⟨(List.replicate CurrentPresets 0).set 2 2500, 0, true⟩ :=
  ⟨(storeCommand_spec (List.replicate CurrentPresets 0) 0 11 5000).1
      (by right; left; decide),
   (storeCommand_spec (List.replicate CurrentPresets 0) 0 3 2500).2
      (by decide) (by decide) (by decide)⟩

/-- C7 (code bug): for STORE slot DEFAULT the acceptance test reads the
uninitialized ValueToStore.  With a valid slot 3, an indeterminate value of
20000 makes the command reply ERROR and leave the default index unchanged,
while an indeterminate value of 0 makes the same command succeed and set the
default index to 2 - acceptance does not depend only on the slot argument. -/
theorem storeDefault_reads_uninitialized_value :
    (storeCommand (List.replicate CurrentPresets 0) 0 3 true 20000).ok = false ∧
    (storeCommand (List.replicate CurrentPresets 0) 0 3 true 20000).defaultIdx
      = 0 ∧
    (storeCommand (List.replicate CurrentPresets 0) 0 3 true 0).ok = true ∧
    (storeCommand (List.replicate CurrentPresets 0) 0 3 true 0).defaultIdx
      = 2 := by decide

/-
  C9: critical-section discipline around persistent configuration accesses.

  EnableInterrupts (lines 237-240) attaches the overcurrent and zero-cross
  triggers; DisableInterrupts (lines 242-246) detaches the zero-cross
  trigger, drives the actuator enable low, and detaches the overcurrent
  trigger.  The persistent-store operations are modelled as the sequences of
  hardware actions they perform; an access is inside a critical section when
  both triggers are detached at the moment of the EEPROM access and both are
  re-attached by the end of the sequence.
-/

/-- Hardware-level actions relevant to the critical-section discipline. -/
inductive HWAction where
  | detachZeroCross
  | detachOvercurrent
  | attachZeroCross
  | attachOvercurrent
  | actuatorOff
  | eepromRead
  | eepromWrite
  deriving DecidableEq

/-- Action sequence of DisableInterrupts (lines 242-246). -/
def DisableInterrupts_actions : List HWAction :=
  [HWAction.detachZeroCross, HWAction.actuatorOff, HWAction.detachOvercurrent]

/-- Action sequence of EnableInterrupts (lines 237-240). -/
def EnableInterrupts_actions : List HWAction :=
  [HWAction.attachOvercurrent, HWAction.attachZeroCross]

/-- Action sequence of RecallPreset (lines 299-304): disable, read, enable. -/
def RecallPreset_actions : List HWAction :=
  DisableInterrupts_actions ++ [HWAction.eepromRead] ++ EnableInterrupts_actions

/-- Action sequence of StorePreset (lines 306-310): disable, write, enable. -/
def StorePreset_actions : List HWAction :=
  DisableInterrupts_actions ++ [HWAction.eepromWrite] ++ EnableInterrupts_actions

/-- Action sequence of the menu assign-default branch (lines 1130-1135):
disable, write the default index, enable. -/
def menuAssignDefault_actions : List HWAction :=
  DisableInterrupts_actions ++ [HWAction.eepromWrite] ++ EnableInterrupts_actions

/-- Action sequence of the remote-session STORE slot DEFAULT write
(line 654): a bare EEPROM.write with no surrounding trigger manipulation. -/
def serialStoreDefault_actions : List HWAction :=
  [HWAction.eepromWrite]

/-- Action sequence of a countermeasure-flag write (lines 466, 539 and 767):
a bare EEPROM.write with no surrounding trigger manipulation. -/
def setCountermeasureFlag_actions : List HWAction :=
  [HWAction.eepromWrite]

/-- Runs an action sequence from a given trigger-attachment state, returning
the final attachment state, or none if some EEPROM access happens while
either trigger is still attached. -/
def runProtected (zcAttached ocAttached : Bool) :
    List HWAction → Option (Bool × Bool)
  | [] => some (zcAttached, ocAttached)
  | a :: rest =>
    match a with
    | HWAction.detachZeroCross => runProtected false ocAttached rest
    | HWAction.detachOvercurrent => runProtected zcAttached false rest
    | HWAction.attachZeroCross => runProtected true ocAttached rest
    | HWAction.attachOvercurrent => runProtected zcAttached true rest
    | HWAction.actuatorOff => runProtected zcAttached ocAttached rest
    | HWAction.eepromRead =>
        if zcAttached = false ∧ ocAttached = false then
          runProtected zcAttached ocAttached rest
        else none
    | HWAction.eepromWrite =>
        if zcAttached = false ∧ ocAttached = false then
          runProtected zcAttached ocAttached rest
        else none

/-- An operation obeys the critical-section discipline when, started with
both triggers attached, every EEPROM access inside it happens with both
triggers detached and both triggers are attached again at its end. -/
def criticalSectionDiscipline (operation : List HWAction) : Prop :=
  runProtected true true operation = some (true, true)

/-- Counterexample to C9 as stated: the remote-session STORE slot DEFAULT
write of line 654 - one of the very accesses the claim covers - performs its
EEPROM write with no surrounding critical section. -/
theorem serialStoreDefault_not_critical :
    ¬ criticalSectionDiscipline serialStoreDefault_actions := by
  unfold criticalSectionDiscipline
  decide

/-- C9 (amended): preset slot load and save and the menu default-index write
each run inside a critical section (both triggers detached immediately
before the EEPROM access and re-attached immediately after), but the
remote-session STORE slot DEFAULT write and the countermeasure-flag writes
access the EEPROM with no critical section at all. -/
theorem criticalSectionDiscipline_spec :
    criticalSectionDiscipline RecallPreset_actions ∧
    criticalSectionDiscipline StorePreset_actions ∧
    criticalSectionDiscipline menuAssignDefault_actions ∧
    ¬ criticalSectionDiscipline serialStoreDefault_actions ∧
    ¬ criticalSectionDiscipline setCountermeasureFlag_actions := by
  unfold criticalSectionDiscipline
  decide

/-
  C4: the PresetEdit digit editor (loop, sketch lines 1046-1123; the
  increment step是 lines 1087-1107).

  DigitTemp is a five-entry byte array, most significant digit first; the
  decomposition loop of lines 1066-1083 computes each entry by repeated
  subtraction of the current factor, that is, Euclidean quotient and
  remainder.  The increment step bumps the selected digit with roll-over at
  9, recomposes the digits into CurrentLimit with 16-bit word arithmetic,
  and on a recomposed value above MaximumCurrent clears the selected digit
  and recomposes again until the value is in range.
-/

/-- The five-entry DigitTemp array of the digit editor, most significant
digit first. -/
structure DigitTemp where
  d0 : Nat
  d1 : Nat
  d2 : Nat
  d3 : Nat
  d4 : Nat
  deriving DecidableEq

/-- Array read DigitTemp[i].  The editor only ever uses i < 5. -/
def getDigit (ds : DigitTemp) (i : Nat) : Nat :=
  match i with
  | 0 => ds.d0
  | 1 => ds.d1
  | 2 => ds.d2
  | 3 => ds.d3
  | _ => ds.d4

/-- Array write DigitTemp[i] = v.  The editor only ever uses i < 5. -/
def setDigit (ds : DigitTemp) (i v : Nat) : DigitTemp :=
  match i with
  | 0 => { ds with d0 := v }
  | 1 => { ds with d1 := v }
  | 2 => { ds with d2 := v }
  | 3 => { ds with d3 := v }
  | _ => { ds with d4 := v }

/-- The decomposition loop of lines 1066-1083: each repeated-subtraction
inner loop computes the Euclidean quotient by the current factor and leaves
the remainder in temp for the next place. -/
def digitsOf (CurrentLimit : Nat) : DigitTemp :=
  { d0 := CurrentLimit / 10000
    d1 := CurrentLimit % 10000 / 1000
    d2 := CurrentLimit % 10000 % 1000 / 100
    d3 := CurrentLimit % 10000 % 1000 % 100 / 10
    d4 := CurrentLimit % 10000 % 1000 % 100 % 10 / 1 }

/-- 16-bit word multiplication (FigureToAdd *= factor, line 1097). -/
def wordMul (a b : Nat) : Nat := a * b % WordModulus

/-- 16-bit word addition (CurrentLimit += FigureToAdd, line 1098). -/
def wordAdd (a b : Nat) : Nat := (a + b) % WordModulus

/-- The recomposition loop of lines 1092-1100: CurrentLimit starts at 0 and
each place value is multiplied by its factor and accumulated, all in 16-bit
word arithmetic. -/
def recomposeDigits (ds : DigitTemp) : Nat :=
  wordAdd (wordAdd (wordAdd (wordAdd (wordAdd 0 (wordMul ds.d0 10000))
    (wordMul ds.d1 1000)) (wordMul ds.d2 100)) (wordMul ds.d3 10))
    (wordMul ds.d4 1)

/-- The digit increment of lines 1088-1091: a byte increment followed by
roll-over to 0 when the digit passes 9, never carrying into the next digit. -/
def incrementDigit (d : Nat) : Nat :=
  if 9 < (d + 1) % 256 then 0 else (d + 1) % 256

/-- The revalidation loop of lines 1092-1107: recompose; while the composed
CurrentLimit exceeds MaximumCurrent, clear the selected digit and recompose.
The source loop is unbounded; fuel bounds the unrolling here and two
iterations suffice whenever the editor entered with an in-range value. -/
def validateLoop : Nat → DigitTemp → Nat → Nat × DigitTemp
  | 0, ds, _ => (recomposeDigits ds, ds)
  | fuel + 1, ds, SelectedDigit =>
    if MaximumCurrent < recomposeDigits ds then
      validateLoop fuel (setDigit ds SelectedDigit 0) SelectedDigit
    else (recomposeDigits ds, ds)

/-- One full increment step of the digit editor (lines 1087-1107), from the
CurrentLimit value displayed at the top of the edit loop: decompose,
increment the selected digit with roll-over, then revalidate.  Returns the
new CurrentLimit and the final digit array. -/
def digitEditIncrement (CurrentLimit SelectedDigit fuel : Nat) :
    Nat × DigitTemp :=
  let ds := digitsOf CurrentLimit
  validateLoop fuel
    (setDigit ds SelectedDigit (incrementDigit (getDigit ds SelectedDigit)))
    SelectedDigit

/-- C4: starting from an in-range CurrentLimit, an increment step never
composes a CurrentLimit above MaximumCurrent; the increment rolls over from
9 to 0 without carrying (the other digits are exactly those of the
decomposition throughout); and when the incremented composition would exceed
MaximumCurrent the step leaves the selected digit at 0 - not at its prior
value and not clamped - while an in-range composition keeps the incremented
digit array unchanged. -/
theorem digitEditIncrement_spec (v s fuel : Nat) (hv : v ≤ MaximumCurrent)
    (hs : s < CurrentDigitCount) (hf : 2 ≤ fuel) :
    (digitEditIncrement v s fuel).1 ≤ MaximumCurrent ∧
    (digitEditIncrement v s fuel).1
      = recomposeDigits (digitEditIncrement v s fuel).2 ∧
    (getDigit (digitsOf v) s = 9 →
      incrementDigit (getDigit (digitsOf v) s) = 0) ∧
    (MaximumCurrent < recomposeDigits
        (setDigit (digitsOf v) s (incrementDigit (getDigit (digitsOf v) s))) →
      (digitEditIncrement v s fuel).2
        = setDigit (setDigit (digitsOf v) s
            (incrementDigit (getDigit (digitsOf v) s))) s 0 ∧
      getDigit (digitEditIncrement v s fuel).2 s = 0) ∧
    (recomposeDigits
        (setDigit (digitsOf v) s (incrementDigit (getDigit (digitsOf v) s)))
        ≤ MaximumCurrent →
      (digitEditIncrement v s fuel).2
        = setDigit (digitsOf v) s (incrementDigit (getDigit (digitsOf v) s))) := by
  obtain ⟨k, rfl⟩ : ∃ k, fuel = k + 2 := ⟨fuel - 2, by omega⟩
  simp only [CurrentDigitCount] at hs
  simp only [MaximumCurrent] at hv ⊢
  obtain ⟨a, b, c, d, e, ha, hb, hc, hd, he, hsum, hds⟩ :
      ∃ a b c d e, a ≤ 1 ∧ b ≤ 9 ∧ c ≤ 9 ∧ d ≤ 9 ∧ e ≤ 9
        ∧ v = a * 10000 + b * 1000 + c * 100 + d * 10 + e
        ∧ digitsOf v = ⟨a, b, c, d, e⟩ :=
    ⟨v / 10000, v % 10000 / 1000, v % 10000 % 1000 / 100,
     v % 10000 % 1000 % 100 / 10, v % 10000 % 1000 % 100 % 10 / 1,
     by omega, by omega, by omega, by omega, by omega, by omega, rfl⟩
  simp only [digitEditIncrement]
  rw [hds]
  interval_cases s <;>
    (simp [getDigit, setDigit, incrementDigit, validateLoop, recomposeDigits,
       wordAdd, wordMul, WordModulus, MaximumCurrent, DigitTemp.mk.injEq]
     try simp (disch := omega) only [Nat.mod_eq_of_lt]
     split_ifs <;> (try simp [DigitTemp.mk.injEq]) <;>
       (try simp (disch := omega) only [Nat.mod_eq_of_lt] at *) <;>
       (try simp only [true_and, and_true]) <;> omega)

/-- Witness for C4 at CurrentLimit 9999, most significant digit selected:
the incremented composition 19999 is rejected, the step leaves the selected
digit at 0 and the composed value stays within MaximumCurrent. -/
theorem digitEditIncrement_spec_witness :
    (digitEditIncrement 9999 0 2).1 ≤ MaximumCurrent ∧
    getDigit (digitEditIncrement 9999 0 2).2 0 = 0 :=
  ⟨(digitEditIncrement_spec 9999 0 2 (by decide) (by decide) (by decide)).1,
   ((digitEditIncrement_spec 9999 0 2 (by decide) (by decide)
      (by decide)).2.2.2.1 (by decide)).2⟩

/-
  C8: the current-sweep diagnostic (sketch lines 770-795, serial session;
  the pushbutton variant of lines 563-610 has the same loop structure with
  the pushbutton as the stop signal).

    EnableInterrupts();
    while (true) {
      if (stop signal) break;
      for (word i = 0; i <= MaximumCurrent; i++) {
        if (stop signal) break;
        CurrentLimit = i;
        WriteCurrentLimit(true);
        if (OvercurrentSensed == true) { report CurrentLimit; break; }
        else if (OvercurrentSensed == false && CurrentLimit == MaximumCurrent) { report out of range; }
      }
    }

  One pass of the inner for loop is modelled; trip i tells whether
  OvercurrentSensed is observed set after applying step i (step 0 clears any
  stale flag inside WriteCurrentLimit before the check) and cancel i whether
  the stop signal is seen at the top of iteration i.  The applied list
  records every CurrentLimit value written to the actuator.
-/

/-- Outcome of one sweep pass. -/
inductive SweepOutcome where
  | tripped (mA : Nat)
  | outOfRange
  | cancelled

/-- The inner sweep for loop from index i with the given fuel (remaining
iterations), accumulating the applied CurrentLimit values. -/
def sweepStep (trip cancel : Nat → Bool) :
    Nat → Nat → List Nat → SweepOutcome × List Nat
  | _, 0, applied => (SweepOutcome.outOfRange, applied)
  | i, fuel + 1, applied =>
    if cancel i = true then (SweepOutcome.cancelled, applied)
    else
      if trip i = true then (SweepOutcome.tripped i, applied ++ [i])
      else if i = MaximumCurrent then (SweepOutcome.outOfRange, applied ++ [i])
      else sweepStep trip cancel (i + 1) fuel (applied ++ [i])

/-- One full sweep pass: i runs from 0 while i is at most MaximumCurrent. -/
def currentSweep (trip cancel : Nat → Bool) : SweepOutcome × List Nat :=
  sweepStep trip cancel 0 (MaximumCurrent + 1) []

/-- Shifted-range unfolding used for the sweep applied-value lists. -/
theorem map_add_range_succ (i n : Nat) :
    List.map (fun j => i + j) (List.range (n + 1))
      = i :: List.map (fun j => i + 1 + j) (List.range n) := by
  rw [List.range_succ_eq_map, List.map_cons, List.map_map]
  refine congrArg₂ List.cons (by omega) (List.map_congr_left ?_)
  intro x _
  simp only [Function.comp_apply]
  omega

/-- Sweep loop lemma: with nothing observed before step n, the stop signal
clear and the flag set at step n within range, the pass reports the trip at
exactly n, having applied exactly the values up to n. -/
theorem sweepStep_tripped (trip cancel : Nat → Bool) :
    ∀ (n i fuel : Nat) (acc : List Nat),
      (∀ j, j < n → cancel (i + j) = false ∧ trip (i + j) = false) →
      cancel (i + n) = false → trip (i + n) = true →
      i + n ≤ MaximumCurrent → n < fuel →
      sweepStep trip cancel i fuel acc
        = (SweepOutcome.tripped (i + n),
           acc ++ List.map (fun j => i + j) (List.range (n + 1))) := by
  intro n
  induction n with
  | zero =>
    intro i fuel acc hq hc ht hle hf
    match fuel, hf with
    | fuel + 1, _ =>
      simp only [Nat.add_zero] at hc ht
      simp only [sweepStep]
      rw [if_neg (by simp [hc]), if_pos ht]
      simp [List.range_succ]
  | succ m ih =>
    intro i fuel acc hq hc ht hle hf
    match fuel, hf with
    | fuel + 1, hf =>
      have h0 := hq 0 (by omega)
      simp only [Nat.add_zero] at h0
      simp only [sweepStep]
      rw [if_neg (by simp [h0.1]), if_neg (by simp [h0.2]),
        if_neg (by omega : ¬ i = MaximumCurrent)]
      rw [ih (i + 1) fuel (acc ++ [i])
        (fun j hj => by
          have hh := hq (j + 1) (by omega)
          constructor
          · have := hh.1
            simpa [Nat.add_assoc, Nat.add_comm 1 j] using this
          · have := hh.2
            simpa [Nat.add_assoc, Nat.add_comm 1 j] using this)
        (by simpa [Nat.add_assoc, Nat.add_comm 1 m] using hc)
        (by simpa [Nat.add_assoc, Nat.add_comm 1 m] using ht)
        (by omega) (by omega)]
      rw [map_add_range_succ i (m + 1)]
      refine congrArg₂ Prod.mk (congrArg SweepOutcome.tripped (by omega)) ?_
      simp

/-- Sweep loop lemma: with nothing observed before step n and the stop
signal seen at step n, the pass is cancelled without a report, having
applied exactly the values below n. -/
theorem sweepStep_cancelled (trip cancel : Nat → Bool) :
    ∀ (n i fuel : Nat) (acc : List Nat),
      (∀ j, j < n → cancel (i + j) = false ∧ trip (i + j) = false) →
      cancel (i + n) = true →
      i + n ≤ MaximumCurrent → n < fuel →
      sweepStep trip cancel i fuel acc
        = (SweepOutcome.cancelled,
           acc ++ List.map (fun j => i + j) (List.range n)) := by
  intro n
  induction n with
  | zero =>
    intro i fuel acc hq hc hle hf
    match fuel, hf with
    | fuel + 1, _ =>
      simp only [Nat.add_zero] at hc
      simp only [sweepStep]
      rw [if_pos hc]
      simp
  | succ m ih =>
    intro i fuel acc hq hc hle hf
    match fuel, hf with
    | fuel + 1, hf =>
      have h0 := hq 0 (by omega)
      simp only [Nat.add_zero] at h0
      simp only [sweepStep]
      rw [if_neg (by simp [h0.1]), if_neg (by simp [h0.2]),
        if_neg (by omega : ¬ i = MaximumCurrent)]
      rw [ih (i + 1) fuel (acc ++ [i])
        (fun j hj => by
          have hh := hq (j + 1) (by omega)
          constructor
          · have := hh.1
            simpa [Nat.add_assoc, Nat.add_comm 1 j] using this
          · have := hh.2
            simpa [Nat.add_assoc, Nat.add_comm 1 j] using this)
        (by simpa [Nat.add_assoc, Nat.add_comm 1 m] using hc)
        (by omega) (by omega)]
      rw [map_add_range_succ]
      simp

/-- Sweep loop lemma: with neither flag nor stop signal through the whole
range, the pass reports out of range after applying every value. -/
theorem sweepStep_outOfRange (trip cancel : Nat → Bool) :
    ∀ (fuel i : Nat) (acc : List Nat),
      (∀ j, i ≤ j → j ≤ MaximumCurrent → cancel j = false ∧ trip j = false) →
      i + fuel = MaximumCurrent + 1 →
      sweepStep trip cancel i fuel acc
        = (SweepOutcome.outOfRange,
           acc ++ List.map (fun j => i + j) (List.range fuel)) := by
  intro fuel
  induction fuel with
  | zero =>
    intro i acc hq hsum
    simp [sweepStep]
  | succ m ih =>
    intro i acc hq hsum
    have h0 := hq i (Nat.le_refl i) (by omega)
    simp only [sweepStep]
    rw [if_neg (by simp [h0.1]), if_neg (by simp [h0.2])]
    by_cases him : i = MaximumCurrent
    · have hm : m = 0 := by omega
      subst hm
      rw [if_pos him]
      simp [List.range_succ]
    · rw [if_neg him]
      rw [ih (i + 1) (acc ++ [i])
        (fun j hj1 hj2 => hq j (by omega) hj2) (by omega)]
      rw [map_add_range_succ]
      simp

/-- C8: one sweep pass steps CurrentLimit from 0 upward in unit increments
(the applied list is exactly a contiguous initial range), reports the first
value at which the overcurrent flag is observed without applying anything
beyond it, reports out of range when MaximumCurrent is reached with the flag
clear, and is cancelled at any step where the stop signal is seen. -/
theorem currentSweep_spec (trip cancel : Nat → Bool) (k : Nat)
    (hk : k ≤ MaximumCurrent)
    (hquiet : ∀ j, j < k → cancel j = false ∧ trip j = false) :
    (cancel k = false → trip k = true →
      currentSweep trip cancel
        = (SweepOutcome.tripped k, List.range (k + 1))) ∧
    (cancel k = true →
      currentSweep trip cancel
        = (SweepOutcome.cancelled, List.range k)) ∧
    ((∀ j, j ≤ MaximumCurrent → cancel j = false ∧ trip j = false) →
      currentSweep trip cancel
        = (SweepOutcome.outOfRange, List.range (MaximumCurrent + 1))) := by
  refine ⟨?_, ?_, ?_⟩
  · intro hc ht
    have h := sweepStep_tripped trip cancel k 0 (MaximumCurrent + 1) []
      (fun j hj => by simpa using hquiet j hj)
      (by simpa using hc) (by simpa using ht) (by omega) (by omega)
    simpa [currentSweep] using h
  · intro hc
    have h := sweepStep_cancelled trip cancel k 0 (MaximumCurrent + 1) []
      (fun j hj => by simpa using hquiet j hj)
      (by simpa using hc) (by omega) (by omega)
    simpa [currentSweep] using h
  · intro hall
    have h := sweepStep_outOfRange trip cancel (MaximumCurrent + 1) 0 []
      (fun j hj1 hj2 => hall j hj2) (by omega)
    simpa [currentSweep] using h

/-- Witness for C8 at the spec scenario: on a line tripping at 4200 mA with
no stop signal, the sweep reports exactly 4200 and applies exactly the
values 0 through 4200. -/
theorem currentSweep_spec_witness :
    currentSweep (fun i => decide (4200 ≤ i)) (fun _ => false)
      = (SweepOutcome.tripped 4200, List.range 4201) :=
  (currentSweep_spec (fun i => decide (4200 ≤ i)) (fun _ => false) 4200
    (by decide)
    (fun j hj => ⟨rfl, decide_eq_false (by omega)⟩)).1 rfl (by simp)
